import Mathlib

/-!
# Verification of the `discord-economy-super` storage layer and balance managers

This file gives a shallow embedding of the repository's path-addressable
document store (flat-file variant), the remote-backed cache manager, and the
`BalanceManager` / `Currency` classes, and proves or refutes the frozen claims
about them.

JavaScript values are embedded as the inductive `JSVal`.  JS numbers are
modelled as `Int` (every claim is about exact integer arithmetic; non-integer
numerics are outside the model), with a separate `nan` constructor for `NaN`.
-/

set_option autoImplicit false

/-- A JavaScript value: number (integer model), `NaN`, string, boolean,
`null`, `undefined`, array, or object (an insertion-ordered association list
from string property names to values, as JS objects with string keys are). -/
inductive JSVal where
  | num : Int → JSVal
  | nan : JSVal
  | str : String → JSVal
  | bool : Bool → JSVal
  | null : JSVal
  | undefined : JSVal
  | arr : List JSVal → JSVal
  | obj : List (String × JSVal) → JSVal

mutual

/-- Structural equality test on `JSVal` (used to model value-matching `pull`). -/
def jsBeq : JSVal → JSVal → Bool
  | .num a, .num b => a == b
  | .nan, .nan => true
  | .str a, .str b => a == b
  | .bool a, .bool b => a == b
  | .null, .null => true
  | .undefined, .undefined => true
  | .arr a, .arr b => jsBeqList a b
  | .obj a, .obj b => jsBeqFields a b
  | _, _ => false

/-- Elementwise equality of two JS arrays. -/
def jsBeqList : List JSVal → List JSVal → Bool
  | [], [] => true
  | a :: as', b :: bs' => jsBeq a b && jsBeqList as' bs'
  | _, _ => false

/-- Fieldwise equality of two JS objects. -/
def jsBeqFields : List (String × JSVal) → List (String × JSVal) → Bool
  | [], [] => true
  | (k, a) :: as', (k', b) :: bs' => k == k' && jsBeq a b && jsBeqFields as' bs'
  | _, _ => false

end

/-- Association-list lookup (first binding wins, as in a JS object). -/
def alookup {κ α : Type} [DecidableEq κ] : List (κ × α) → κ → Option α
  | [], _ => none
  | (k', v) :: rest, k => if k' = k then some v else alookup rest k

/-- Association-list insert: replaces an existing binding in place (JS
assignment to an existing property keeps its position), appends otherwise. -/
def ainsert {κ α : Type} [DecidableEq κ] : List (κ × α) → κ → α → List (κ × α)
  | [], k, v => [(k, v)]
  | (k', v') :: rest, k, v =>
      if k' = k then (k, v) :: rest else (k', v') :: ainsert rest k v

/-- Association-list key removal (JS `delete`). -/
def aremove {κ α : Type} [DecidableEq κ] : List (κ × α) → κ → List (κ × α)
  | [], _ => []
  | (k', v') :: rest, k =>
      if k' = k then rest else (k', v') :: aremove rest k

mutual

/-- JS string conversion `String(v)` on the modelled constructors. -/
def jsToString : JSVal → String
  | .num n => toString n
  | .nan => "NaN"
  | .str s => s
  | .bool b => if b then "true" else "false"
  | .null => "null"
  | .undefined => "undefined"
  | .arr xs => String.intercalate "," (jsToStringList xs)
  | .obj _ => "[object Object]"

/-- Stringification of each element of an array (for `Array.prototype.join`). -/
def jsToStringList : List JSVal → List String
  | [] => []
  | v :: vs => jsToString v :: jsToStringList vs

end

/-- Value of a decimal digit character, if it is one. -/
def digitVal (c : Char) : Option Nat :=
  if c.isDigit then some (c.toNat - 48) else none

/-- Accumulating decimal parser over a digit run. -/
def parseDigitsAux : List Char → Nat → Option Nat
  | [], acc => some acc
  | c :: cs, acc =>
      match digitVal c with
      | some d => parseDigitsAux cs (acc * 10 + d)
      | none => none

/-- Parse a nonempty all-digit run. -/
def parseDigits : List Char → Option Nat
  | [] => none
  | cs => parseDigitsAux cs 0

/-- JS `Number(string)` restricted to the integer model: surrounding
whitespace is trimmed, the empty string is `0`, an optional sign followed by
decimal digits is an integer; everything else (including the non-integer
numeric literals that the `Int` model cannot represent) is `NaN` (`none`). -/
def parseNumChars (cs : List Char) : Option Int :=
  let t := ((cs.dropWhile Char.isWhitespace).reverse.dropWhile Char.isWhitespace).reverse
  match t with
  | [] => some 0
  | '-' :: rest => (parseDigits rest).map (fun n => -(n : Int))
  | '+' :: rest => (parseDigits rest).map (fun n => (n : Int))
  | _ => (parseDigits t).map (fun n => (n : Int))

/-- JS `ToNumber` on the modelled constructors (`none` denotes `NaN`).
An array is converted via its string form, as JS does. -/
def jsToNum : JSVal → Option Int
  | .num n => some n
  | .nan => none
  | .str s => parseNumChars s.data
  | .bool b => some (if b then 1 else 0)
  | .null => some 0
  | .undefined => none
  | .arr xs => parseNumChars (jsToString (.arr xs)).data
  | .obj _ => none

/-- The global JS `isNaN(v)`: whether `Number(v)` is `NaN`. -/
def jsIsNaN (v : JSVal) : Bool := (jsToNum v).isNone

/-- JS `Number(v)` as a value. -/
def jsNumber (v : JSVal) : JSVal :=
  match jsToNum v with
  | some k => .num k
  | none => .nan

/-- JS truthiness. -/
def truthy : JSVal → Bool
  | .num n => n != 0
  | .nan => false
  | .str s => !s.isEmpty
  | .bool b => b
  | .null => false
  | .undefined => false
  | .arr _ => true
  | .obj _ => true

/-- JS `a || b`. -/
def jsOr (a b : JSVal) : JSVal := if truthy a then a else b

/-- Whether JS `+` would take the string-concatenation path for this operand
(strings, and arrays/objects, whose `ToPrimitive` is a string). -/
def stringyOperand : JSVal → Bool
  | .str _ => true
  | .arr _ => true
  | .obj _ => true
  | _ => false

/-- JS binary `+`. -/
def jsAdd (a b : JSVal) : JSVal :=
  if stringyOperand a || stringyOperand b then
    .str (jsToString a ++ jsToString b)
  else
    match jsToNum a, jsToNum b with
    | some x, some y => .num (x + y)
    | _, _ => .nan

/-- JS binary `-` (always numeric). -/
def jsSub (a b : JSVal) : JSVal :=
  match jsToNum a, jsToNum b with
  | some x, some y => .num (x - y)
  | _, _ => .nan

/-- JS `v < 0` for the modelled values (`ToNumber` comparison; `NaN` compares
false). -/
def jsLtZero (v : JSVal) : Bool :=
  match jsToNum v with
  | some k => k < 0
  | none => false

/-- JS `typeof v === 'string'`. -/
def isStr : JSVal → Bool
  | .str _ => true
  | _ => false

/-- Remove the first element structurally equal to `x` (JS value-matching
`pull`). -/
def removeFirst : List JSVal → JSVal → List JSVal
  | [], _ => []
  | y :: ys, x => if jsBeq y x then ys else y :: removeFirst ys x

/-- Error reported by the storage layer / managers (`EconomyError`), reduced
to its error code; `TYPE_ERROR` models a raw JS `TypeError` crash. -/
structure EcoErr where
  code : String
deriving DecidableEq, Repr

def errInvalidType : EcoErr := ⟨"INVALID_TYPE"⟩

def errInvalidInput : EcoErr := ⟨"INVALID_INPUT"⟩

def errInvalidPath : EcoErr := ⟨"INVALID_PATH"⟩

def errTypeError : EcoErr := ⟨"TYPE_ERROR"⟩

/-- Prepend a character to the first segment of a split result. -/
def consHead (c : Char) : List String → List String
  | [] => [String.mk [c]]
  | h :: t => String.mk (c :: h.data) :: t

/-- Split a character sequence on `'.'` (JS `path.split('.')`); always
returns at least one segment, and a trailing/leading dot yields an empty
segment, exactly as in JS. -/
def splitSegs : List Char → List String
  | [] => [""]
  | c :: cs => if c = '.' then "" :: splitSegs cs else consHead c (splitSegs cs)

/-- Split a dot-path string into its segments. -/
def splitDots (p : String) : List String := splitSegs p.data

/-- Modelled from the spec: the path resolver's `resolveRead(root, path)`
(§4.1, not present under `src/`): descends segment by segment, returning
`none` (`NOT_FOUND`) the instant a segment is missing or the current node is
not a mapping; a pure function, so it never mutates the root. -/
def getPath : JSVal → List String → Option JSVal
  | v, [] => some v
  | .obj m, k :: ks =>
      match alookup m k with
      | some v => getPath v ks
      | none => none
  | _, _ :: _ => none

/-- Modelled from the spec: the path resolver's `resolveWrite` combined with
the terminal assignment (§4.1, not present under `src/`): descends creating
an empty mapping at any missing intermediate segment, assigns the final
segment's slot, and reports `INVALID_PATH` on an attempt to descend through
a present non-mapping value. -/
def setPath (v : JSVal) : JSVal → List String → Except EcoErr JSVal
  | _, [] => .ok v
  | .obj m, k :: ks =>
      match ks with
      | [] => .ok (.obj (ainsert m k v))
      | _ :: _ =>
          match alookup m k with
          | none => (setPath v (.obj []) ks).map (fun sub => .obj (ainsert m k sub))
          | some (.obj m') => (setPath v (.obj m') ks).map (fun sub => .obj (ainsert m k sub))
          | some _ => .error errInvalidPath
  | _, _ :: _ => .error errInvalidPath

/-- Whether the read descent of this path meets a *missing* segment while the
current node is still a mapping (the "absent path" case of the spec, as
opposed to the structural-conflict case where a present non-mapping value is
hit). -/
def hitsMissing : JSVal → List String → Bool
  | .obj m, k :: ks =>
      match alookup m k with
      | none => true
      | some v => hitsMissing v ks
  | _, _ => false

/-- Modelled from the spec: the flat-file document store's state (§4.2, not
present under `src/`): the in-memory JSON tree plus the persisted backing
file's contents.  Every mutating call rewrites the whole file from the tree
before returning; all reads are served from memory. -/
structure FileStore where
  root : JSVal
  file : JSVal

/-- A freshly-initialised store over an empty tree. -/
def emptyStore : FileStore := ⟨.obj [], .obj []⟩

/-- Modelled from the spec: `fetch(path)` resolves the path for reading;
`NOT_FOUND` is surfaced as `none`. -/
def dbFetchOpt (st : FileStore) (p : String) : Option JSVal :=
  getPath st.root (splitDots p)

/-- Modelled from the spec: `fetch(path)` as seen by JS callers
(`NOT_FOUND` maps to `null`). -/
def dbFetchVal (st : FileStore) (p : String) : JSVal :=
  (dbFetchOpt st p).getD .null

/-- Modelled from the spec: `set(path, value)`: resolve for writing, assign,
persist the whole tree, return the assigned value.  On `INVALID_PATH` the
error is reported and the store is untouched. -/
def dbSetRun (st : FileStore) (p : String) (v : JSVal) :
    Except EcoErr JSVal × FileStore :=
  match setPath v st.root (splitDots p) with
  | .ok r' => (.ok v, ⟨r', r'⟩)
  | .error e => (.error e, st)

/-- Write step shared by the numeric operators: store the new numeric value
and persist. -/
def dbNumWrite (st : FileStore) (p : String) (newVal : Int) :
    Except EcoErr JSVal × FileStore :=
  match setPath (.num newVal) st.root (splitDots p) with
  | .ok r' => (.ok (.num newVal), ⟨r', r'⟩)
  | .error e => (.error e, st)

/-- Modelled from the spec: `add(path, amount)`: read the current numeric
value (absent treated as zero, a present non-numeric value is an
`INVALID_TYPE` failure), require the amount to be a (finite) number
(`INVALID_TYPE` otherwise), write `current + amount`, persist, and return the
new value.  A failed call leaves the store exactly as it was. -/
def dbAddRun (st : FileStore) (p : String) (amount : JSVal) :
    Except EcoErr JSVal × FileStore :=
  match dbFetchOpt st p, amount with
  | some (.num cur), .num a => dbNumWrite st p (cur + a)
  | none, .num a => dbNumWrite st p (0 + a)
  | some (.num _), _ => (.error errInvalidType, st)
  | none, _ => (.error errInvalidType, st)
  | some _, _ => (.error errInvalidType, st)

/-- Modelled from the spec: `subtract(path, amount)`, symmetric to `add` with
`current - amount`. -/
def dbSubtractRun (st : FileStore) (p : String) (amount : JSVal) :
    Except EcoErr JSVal × FileStore :=
  match dbFetchOpt st p, amount with
  | some (.num cur), .num a => dbNumWrite st p (cur - a)
  | none, .num a => dbNumWrite st p (0 - a)
  | some (.num _), _ => (.error errInvalidType, st)
  | none, _ => (.error errInvalidType, st)
  | some _, _ => (.error errInvalidType, st)

/-- Write step shared by the array operators: store the new array and
persist. -/
def dbArrWrite (st : FileStore) (p : String) (newArr : List JSVal) :
    Except EcoErr JSVal × FileStore :=
  match setPath (.arr newArr) st.root (splitDots p) with
  | .ok r' => (.ok (.arr newArr), ⟨r', r'⟩)
  | .error e => (.error e, st)

/-- Modelled from the spec: `push(path, item)`: read the current array
(absent treated as empty, a present non-array is `INVALID_TYPE`), append the
item, persist, return the new array. -/
def dbPushRun (st : FileStore) (p : String) (item : JSVal) :
    Except EcoErr JSVal × FileStore :=
  match dbFetchOpt st p with
  | some (.arr xs) => dbArrWrite st p (xs ++ [item])
  | none => dbArrWrite st p [item]
  | some _ => (.error errInvalidType, st)

/-- Modelled from the spec: `pull(path, value)` in its value-matching form
(the predicate form is not needed by any claim): remove the first element
equal to the value, persist, return the new array. -/
def dbPullRun (st : FileStore) (p : String) (x : JSVal) :
    Except EcoErr JSVal × FileStore :=
  match dbFetchOpt st p with
  | some (.arr xs) => dbArrWrite st p (removeFirst xs x)
  | none => dbArrWrite st p []
  | some _ => (.error errInvalidType, st)

/-- A mutation event emitted to listeners (`Emitter.emit`): the event name
and the payload fields common to the balance/currency events.  `currencyID`
stands in for the `currency: this` field of the custom-currency payloads. -/
structure EcoEvent where
  name : String
  etype : String
  guildID : JSVal
  memberID : JSVal
  amount : JSVal
  balance : JSVal
  reason : Option String
  currencyID : Option Int

/-- Outcome of a manager method: the returned value or thrown error, the
store state afterwards, and the events emitted along the way. -/
structure BMOut (α : Type) where
  ret : Except EcoErr α
  st : FileStore
  events : List EcoEvent

/-- The dot-path of a member's money balance,
`` `${guildID}.${memberID}.money` `` (template literals coerce their holes
with JS `String(·)`). -/
def moneyPath (guildID memberID : JSVal) : String :=
  jsToString guildID ++ "." ++ jsToString memberID ++ ".money"

/-- The dot-path of a member's bank balance. -/
def bankPath (guildID memberID : JSVal) : String :=
  jsToString guildID ++ "." ++ jsToString memberID ++ ".bank"

/-- Modelled from the spec: `FetchManager.fetchBalance` (not present under
`src/`): a feature-manager read-through returning the member's stored money
value, with falsy values (in particular an absent path's `null`) defaulted to
`0` — the `fetch(path) || 0` idiom. -/
def fetchBalance (st : FileStore) (memberID guildID : JSVal) : JSVal :=
  jsOr (dbFetchVal st (moneyPath guildID memberID)) (.num 0)

/-- Modelled from the spec: `FetchManager.fetchBank`, same for the bank
balance. -/
def fetchBank (st : FileStore) (memberID guildID : JSVal) : JSVal :=
  jsOr (dbFetchVal st (bankPath guildID memberID)) (.num 0)

/-- `BalanceManager.fetch(memberID, guildID)`: validates that both IDs are
strings, then reads the balance. -/
def bmFetch (memberID guildID : JSVal) (st : FileStore) : BMOut JSVal :=
  if !isStr memberID then ⟨.error errInvalidType, st, []⟩
  else if !isStr guildID then ⟨.error errInvalidType, st, []⟩
  else ⟨.ok (fetchBalance st memberID guildID), st, []⟩

/-- `BalanceManager.set(amount, memberID, guildID, reason)`: fetches the old
balance, validates `!isNaN(amount)` and that both IDs are strings, writes the
amount at the money path, emits `balanceSet` (whose `balance` field is the
*old* balance), and returns the amount. -/
def bmSet (amount memberID guildID : JSVal) (reason : Option String)
    (st : FileStore) : BMOut JSVal :=
  let balance := fetchBalance st memberID guildID
  if jsIsNaN amount then ⟨.error errInvalidType, st, []⟩
  else if !isStr memberID then ⟨.error errInvalidType, st, []⟩
  else if !isStr guildID then ⟨.error errInvalidType, st, []⟩
  else
    match dbSetRun st (moneyPath guildID memberID) amount with
    | (.ok _, st') =>
        ⟨.ok amount, st',
          [⟨"balanceSet", "set", guildID, memberID, jsNumber amount, balance,
            reason, none⟩]⟩
    | (.error e, st') => ⟨.error e, st', []⟩

/-- `BalanceManager.add(amount, memberID, guildID, reason)`: fetches the old
balance, validates, delegates to the store's `add`, emits `balanceAdd` with
`balance: balance + amount`, and returns the amount. -/
def bmAdd (amount memberID guildID : JSVal) (reason : Option String)
    (st : FileStore) : BMOut JSVal :=
  let balance := fetchBalance st memberID guildID
  if jsIsNaN amount then ⟨.error errInvalidType, st, []⟩
  else if !isStr memberID then ⟨.error errInvalidType, st, []⟩
  else if !isStr guildID then ⟨.error errInvalidType, st, []⟩
  else
    match dbAddRun st (moneyPath guildID memberID) amount with
    | (.ok _, st') =>
        ⟨.ok amount, st',
          [⟨"balanceAdd", "add", guildID, memberID, jsNumber amount,
            jsAdd balance amount, reason, none⟩]⟩
    | (.error e, st') => ⟨.error e, st', []⟩

/-- `BalanceManager.subtract(amount, memberID, guildID, reason)`: symmetric
to `add`, emitting `balanceSubtract` with `balance: balance - amount`. -/
def bmSubtract (amount memberID guildID : JSVal) (reason : Option String)
    (st : FileStore) : BMOut JSVal :=
  let balance := fetchBalance st memberID guildID
  if jsIsNaN amount then ⟨.error errInvalidType, st, []⟩
  else if !isStr memberID then ⟨.error errInvalidType, st, []⟩
  else if !isStr guildID then ⟨.error errInvalidType, st, []⟩
  else
    match dbSubtractRun st (moneyPath guildID memberID) amount with
    | (.ok _, st') =>
        ⟨.ok amount, st',
          [⟨"balanceSubtract", "subtract", guildID, memberID, jsNumber amount,
            jsSub balance amount, reason, none⟩]⟩
    | (.error e, st') => ⟨.error e, st', []⟩

/-- `BalanceManager.deposit(amount, memberID, guildID, reason)`: fetches both
balances, validates `!isNaN(amount)`, then `amount < 0` (`INVALID_INPUT`),
then the two IDs; subtracts from the money path, adds to the bank path, and
emits `balanceSubtract` and `bankAdd`. -/
def bmDeposit (amount memberID guildID : JSVal) (reason : Option String)
    (st : FileStore) : BMOut JSVal :=
  let balance := fetchBalance st memberID guildID
  let bank := fetchBank st memberID guildID
  if jsIsNaN amount then ⟨.error errInvalidType, st, []⟩
  else if jsLtZero amount then ⟨.error errInvalidInput, st, []⟩
  else if !isStr memberID then ⟨.error errInvalidType, st, []⟩
  else if !isStr guildID then ⟨.error errInvalidType, st, []⟩
  else
    match dbSubtractRun st (moneyPath guildID memberID) amount with
    | (.error e, st') => ⟨.error e, st', []⟩
    | (.ok _, st1) =>
        match dbAddRun st1 (bankPath guildID memberID) amount with
        | (.error e, st') => ⟨.error e, st', []⟩
        | (.ok _, st2) =>
            ⟨.ok amount, st2,
              [⟨"balanceSubtract", "subtract", guildID, memberID,
                 jsNumber amount, jsSub balance amount, reason, none⟩,
               ⟨"bankAdd", "add", guildID, memberID,
                 jsNumber amount, jsAdd bank amount, reason, none⟩]⟩

/-- `TransferingOptions` of `BalanceManager.transfer`. -/
structure TransferOpts where
  amount : JSVal
  senderMemberID : JSVal
  receiverMemberID : JSVal
  sendingReason : Option String
  receivingReason : Option String

/-- `TransferingResult` of `BalanceManager.transfer`. -/
structure TransferResult where
  success : Bool
  guildID : JSVal
  senderBalance : JSVal
  receiverBalance : JSVal
  amount : JSVal
  senderMemberID : JSVal
  receiverMemberID : JSVal
  sendingReason : Option String
  receivingReason : Option String

/-- `BalanceManager.transfer(guildID, options)`: validates the guild ID, the
amount and both member IDs, then `add`s to the receiver and `subtract`s from
the sender, and reports `success: true` with both freshly fetched balances. -/
def bmTransfer (guildID : JSVal) (opts : TransferOpts) (st : FileStore) :
    BMOut TransferResult :=
  if !isStr guildID then ⟨.error errInvalidType, st, []⟩
  else if jsIsNaN opts.amount then ⟨.error errInvalidType, st, []⟩
  else if !isStr opts.senderMemberID then ⟨.error errInvalidType, st, []⟩
  else if !isStr opts.receiverMemberID then ⟨.error errInvalidType, st, []⟩
  else
    let out1 := bmAdd opts.amount opts.receiverMemberID guildID
      (some (opts.receivingReason.getD "receiving money from user")) st
    match out1.ret with
    | .error e => ⟨.error e, out1.st, out1.events⟩
    | .ok _ =>
        let out2 := bmSubtract opts.amount opts.senderMemberID guildID
          (some (opts.sendingReason.getD "sending money to user")) out1.st
        match out2.ret with
        | .error e => ⟨.error e, out2.st, out1.events ++ out2.events⟩
        | .ok _ =>
            let senderBalance :=
              match (bmFetch opts.senderMemberID guildID out2.st).ret with
              | .ok v => v
              | .error _ => .undefined
            let receiverBalance :=
              match (bmFetch opts.receiverMemberID guildID out2.st).ret with
              | .ok v => v
              | .error _ => .undefined
            ⟨.ok ⟨true, guildID, senderBalance, receiverBalance, opts.amount,
                opts.senderMemberID, opts.receiverMemberID,
                opts.sendingReason, opts.receivingReason⟩,
              out2.st, out1.events ++ out2.events⟩

/-- One entry of the balance leaderboard. -/
structure LBEntry where
  userID : JSVal
  money : JSVal

/-- The numeric sort key of a leaderboard entry (its `money` field is always
a number by construction; the comparator `current.money - previous.money`
sorts by it in non-increasing order). -/
def lbKey (e : LBEntry) : Int :=
  match e.money with
  | .num k => k
  | _ => 0

/-- "`a` may come before `b`" in the descending order of the comparator. -/
def lbLe (a b : LBEntry) : Bool := lbKey b ≤ lbKey a

/-- Stable insertion into a descending-sorted list. -/
def insertSorted (x : LBEntry) : List LBEntry → List LBEntry
  | [] => [x]
  | y :: ys => if lbLe x y then x :: y :: ys else y :: insertSorted x ys

/-- Stable sort in the comparator's descending order (JS `Array.prototype.sort`
is stable). -/
def lbSort : List LBEntry → List LBEntry
  | [] => []
  | x :: xs => insertSorted x (lbSort xs)

/-- JS `user.money`: the `money` property of a member record (property access
on a non-object yields `undefined`; the crashing `null`/`undefined` receiver
corner is modelled as `undefined` too and is unreached by the claims). -/
def objMoney : JSVal → JSVal
  | .obj fs => (alookup fs "money").getD .undefined
  | _ => .undefined

/-- JS `v === 'shop'`. -/
def strictEqShop : JSVal → Bool
  | .str t => t == "shop"
  | _ => false

/-- `BalanceManager.leaderboard(guildID)`: fetches the whole tree, validates
the guild ID, returns `[]` for a falsy guild record; otherwise pairs the
*unfiltered* list of member keys index-by-index with the *filtered* list of
numeric money values, sorts by money descending, and drops entries whose
`userID` is `'shop'`.  (`Object.keys`/`Object.values` on the modelled string-
keyed objects enumerate in insertion order.) -/
def bmLeaderboard (guildID : JSVal) (st : FileStore) :
    Except EcoErr (List LBEntry) :=
  if !isStr guildID then .error errInvalidType
  else
    let guildData :=
      match st.root with
      | .obj m => (alookup m (jsToString guildID)).getD .undefined
      | _ => .undefined
    if !truthy guildData then .ok []
    else
      match guildData with
      | .obj entries =>
          let users := entries.map Prod.fst
          let ranks :=
            (entries.map (fun e => objMoney e.2)).filter (fun v => !jsIsNaN v)
          let lb := (List.range ranks.length).map (fun i =>
            (⟨match users[i]? with
              | some u => JSVal.str u
              | none => JSVal.undefined,
              jsNumber ((ranks[i]?).getD JSVal.undefined)⟩ : LBEntry))
          .ok ((lbSort lb).filter (fun e => !strictEqShop e.userID))
      | _ => .ok []

/-- The in-memory part of a `Currency` instance: its guild, its numeric ID
and its constructor-time `balances` object (`this.balances`). -/
structure CurrencyState where
  guildID : String
  id : Int
  balances : List (String × JSVal)

/-- `Currency._all()`: the guild's `currencies` array from the database,
`|| []` defaulting (a present truthy non-array would crash later in JS and is
unreached; modelled as the empty array). -/
def currencyAll (db : FileStore) (guildID : String) : List JSVal :=
  match dbFetchVal db (guildID ++ ".currencies") with
  | .arr xs => xs
  | _ => []

/-- The `id` property of a stored currency object, when it is a number. -/
def currencyObjId (o : JSVal) : Option Int :=
  match o with
  | .obj fs =>
      match alookup fs "id" with
      | some (.num n) => some n
      | _ => none
  | _ => none

/-- `Currency.getBalance(memberID)`: `this.balances[memberID] || 0`, read
from the instance's in-memory balances object. -/
def CurrencyState.getBalance (c : CurrencyState) (memberID : JSVal) : JSVal :=
  jsOr ((alookup c.balances (jsToString memberID)).getD .undefined) (.num 0)

/-- `Currency.setBalance(amount, memberID, reason, emitSet)`: re-fetches the
guild's currencies array, locates this currency by `id`, validates
`!isNaN(amount)` and that the member ID is a string, assigns
`currency.balances[memberID] = amount`, deletes the non-data fields, splices
the updated object back, writes the array to the database, optionally emits
`customCurrencySet` (with `balance: amount`), and returns the amount.  A
missing currency object or a non-object `balances` field crashes in JS
(`TypeError`); both are modelled as a `TYPE_ERROR` result. -/
def CurrencyState.setBalance (c : CurrencyState) (amount memberID : JSVal)
    (reason : Option String) (emitSet : Bool) (db : FileStore) : BMOut JSVal :=
  let arr := currencyAll db c.guildID
  let idx := arr.findIdx (fun o => currencyObjId o == some c.id)
  if jsIsNaN amount then ⟨.error errInvalidType, db, []⟩
  else if !isStr memberID then ⟨.error errInvalidType, db, []⟩
  else
    match arr.find? (fun o => currencyObjId o == some c.id) with
    | none => ⟨.error errTypeError, db, []⟩
    | some (.obj fields) =>
        match alookup fields "balances" with
        | some (.obj bals) =>
            let bals' := ainsert bals (jsToString memberID) amount
            let fields' :=
              aremove (aremove (aremove (ainsert fields "balances" (.obj bals'))
                "database") "options") "rawObject"
            let arr' := arr.set idx (.obj fields')
            match dbSetRun db (c.guildID ++ ".currencies") (.arr arr') with
            | (.ok _, db') =>
                ⟨.ok amount, db',
                  if emitSet then
                    [⟨"customCurrencySet", "customCurrencySet", .str c.guildID,
                      memberID, amount, amount, reason, some c.id⟩]
                  else []⟩
            | (.error e, db') => ⟨.error e, db', []⟩
        | _ => ⟨.error errTypeError, db, []⟩
    | some _ => ⟨.error errTypeError, db, []⟩

/-- `Currency.addBalance(amount, memberID, reason)`: reads the in-memory
balance, delegates to `setBalance(currencyBalance + amount, ...)` without the
set event, then emits `customCurrencyAdd` whose `balance` field is
`currencyBalance + result` — where `result` is `setBalance`'s return value,
i.e. already the *new* balance. -/
def CurrencyState.addBalance (c : CurrencyState) (amount memberID : JSVal)
    (reason : Option String) (db : FileStore) : BMOut JSVal :=
  let currencyBalance := c.getBalance memberID
  let out := c.setBalance (jsAdd currencyBalance amount) memberID reason false db
  match out.ret with
  | .ok result =>
      ⟨.ok result, out.st,
        out.events ++
          [⟨"customCurrencyAdd", "customCurrencyAdd", .str c.guildID, memberID,
            amount, jsAdd currencyBalance result, reason, some c.id⟩]⟩
  | .error _ => out

/-- `Currency.subtractBalance(amount, memberID, reason)`: symmetric to
`addBalance`; the emitted `balance` field is `currencyBalance - result`. -/
def CurrencyState.subtractBalance (c : CurrencyState) (amount memberID : JSVal)
    (reason : Option String) (db : FileStore) : BMOut JSVal :=
  let currencyBalance := c.getBalance memberID
  let out := c.setBalance (jsSub currencyBalance amount) memberID reason false db
  match out.ret with
  | .ok result =>
      ⟨.ok result, out.st,
        out.events ++
          [⟨"customCurrencySubtract", "customCurrencySubtract", .str c.guildID,
            memberID, amount, jsSub currencyBalance result, reason, some c.id⟩]⟩
  | .error _ => out

/-- A cached document mirror: the last-known value and its fetch
timestamp. -/
structure CacheEntry where
  data : JSVal
  fetchedAt : Nat

/-- `CacheEntry.isStale(maxAgeMs)`: `now - fetchedAt > maxAgeMs`. -/
def CacheEntry.isStale (e : CacheEntry) (now maxAge : Nat) : Bool :=
  now - e.fetchedAt > maxAge

/-- The composite identifier of one cached document: the entity kind plus
the owner-scope/entity-scope key pair. -/
structure CacheKey where
  kind : String
  owner : String
  entity : String
deriving DecidableEq

/-- Modelled from the spec: the remote-backed store's state (§4.4; the
`CacheManager`/`CachedItem` sources are not under `src/`, only their typings):
the remote document database as the source of truth, plus the per-kind cache
collections, flattened into one keyed collection. -/
structure CacheStore where
  remote : List (CacheKey × JSVal)
  cache : List (CacheKey × CacheEntry)

/-- Modelled from the spec: `write(entityKind, compositeKey, mutatorFn)`:
the remote store applies the mutation first and acknowledges the
authoritative post-write value; only then is the cache entry overwritten
with that acknowledged value (write-through), resetting its timestamp. -/
def cmWrite (st : CacheStore) (k : CacheKey) (mutator : Option JSVal → JSVal)
    (now : Nat) : JSVal × CacheStore :=
  let acked := mutator (alookup st.remote k)
  (acked, ⟨ainsert st.remote k acked, ainsert st.cache k ⟨acked, now⟩⟩)

/-- Modelled from the spec: `read(entityKind, compositeKey)`: a non-stale
cache entry is served from cache; otherwise a remote read refreshes the
entry.  A missing remote document is a reported absence (`none`), never a
silent fallback to stale data. -/
def cmRead (st : CacheStore) (k : CacheKey) (now maxAge : Nat) :
    Option JSVal × CacheStore :=
  match alookup st.cache k with
  | some e =>
      if e.isStale now maxAge then
        match alookup st.remote k with
        | some v => (some v, ⟨st.remote, ainsert st.cache k ⟨v, now⟩⟩)
        | none => (none, st)
      else (some e.data, st)
  | none =>
      match alookup st.remote k with
      | some v => (some v, ⟨st.remote, ainsert st.cache k ⟨v, now⟩⟩)
      | none => (none, st)

/-- Rejoin split segments with dots (left inverse of `splitSegs`). -/
def joinSegs : List String → List Char
  | [] => []
  | [s] => s.data
  | s :: t => s.data ++ '.' :: joinSegs t

/-- Fixture: the store after `set("g1.u1.money", 100)` on an empty store. -/
def c1s1 : FileStore := (dbSetRun emptyStore "g1.u1.money" (.num 100)).2

/-- Fixture: then after `add("g1.u1.money", 50)`. -/
def c1s2 : FileStore := (dbAddRun c1s1 "g1.u1.money" (.num 50)).2

/-- Fixture: then after `subtract("g1.u1.money", 200)`. -/
def c1s3 : FileStore := (dbSubtractRun c1s2 "g1.u1.money" (.num 200)).2

/-- Fixture: a store whose persisted document holds `g1.u1.money = 100`. -/
def stC3 : FileStore :=
  ⟨.obj [("g1", .obj [("u1", .obj [("money", .num 100)])])],
   .obj [("g1", .obj [("u1", .obj [("money", .num 100)])])]⟩

/-- Fixture: a store whose `g1.u1.money` holds the string `"hello"`. -/
def stC2w : FileStore :=
  ⟨.obj [("g1", .obj [("u1", .obj [("money", .str "hello")])])],
   .obj [("g1", .obj [("u1", .obj [("money", .str "hello")])])]⟩

/-- Fixture: a store whose `g1.u1.money` holds the boolean `true`. -/
def stC2b : FileStore :=
  ⟨.obj [("g1", .obj [("u1", .obj [("money", .bool true)])])],
   .obj [("g1", .obj [("u1", .obj [("money", .bool true)])])]⟩

/-- Fixture: a database holding one guild currency, id `1`, with member `u1`
at balance `100`. -/
def c4db : FileStore :=
  ⟨.obj [("g", .obj [("currencies",
      .arr [.obj [("id", .num 1), ("name", .str "coin"),
                  ("balances", .obj [("u1", .num 100)])]])])],
   .obj [("g", .obj [("currencies",
      .arr [.obj [("id", .num 1), ("name", .str "coin"),
                  ("balances", .obj [("u1", .num 100)])]])])]⟩

/-- Fixture: the `Currency` instance over that database. -/
def c4c : CurrencyState := ⟨"g", 1, [("u1", .num 100)]⟩

/-- Fixture: the outcome of `addBalance(50, 'u1')` on that currency. -/
def c4out : BMOut JSVal := c4c.addBalance (.num 50) (.str "u1") none c4db

/-- Fixture: the outcome of `subtractBalance(30, 'u1')` on that currency. -/
def c4out2 : BMOut JSVal := c4c.subtractBalance (.num 30) (.str "u1") none c4db

/-- Fixture: a guild where `u1.money` is the non-numeric string `"abc"` and
`u2.money` is `50`. -/
def c10st : FileStore :=
  ⟨.obj [("g", .obj [("u1", .obj [("money", .str "abc")]),
                     ("u2", .obj [("money", .num 50)])])],
   .obj []⟩

/-- Fixture: a guild with members `u1` (100), the `shop` key (an array, so
its `money` is `undefined`), and `u2` (50). -/
def c10st2 : FileStore :=
  ⟨.obj [("g", .obj [("u1", .obj [("money", .num 100)]),
                     ("shop", .arr []),
                     ("u2", .obj [("money", .num 50)])])],
   .obj []⟩

/-- Fixture: a guild with two members holding `100` and `30`. -/
def stC9w : FileStore :=
  ⟨.obj [("g1", .obj [("u1", .obj [("money", .num 100)]),
                      ("u2", .obj [("money", .num 30)])])],
   .obj [("g1", .obj [("u1", .obj [("money", .num 100)]),
                      ("u2", .obj [("money", .num 30)])])]⟩

theorem alookup_ainsert_self {κ α : Type} [DecidableEq κ]
    (m : List (κ × α)) (k : κ) (v : α) : alookup (ainsert m k v) k = some v := by
  induction m with
  | nil => simp [ainsert, alookup]
  | cons hd tl ih =>
      obtain ⟨k', v'⟩ := hd
      by_cases hk : k' = k
      · simp [ainsert, alookup, hk]
      · simp [ainsert, alookup, hk, ih]

theorem alookup_ainsert_ne {κ α : Type} [DecidableEq κ]
    (m : List (κ × α)) (k k' : κ) (v : α) (h : k ≠ k') :
    alookup (ainsert m k v) k' = alookup m k' := by
  induction m with
  | nil => simp [ainsert, alookup, h]
  | cons hd tl ih =>
      obtain ⟨k₀, v₀⟩ := hd
      by_cases hk : k₀ = k
      · simp [ainsert, alookup, hk, h]
      · simp [ainsert, alookup, hk, ih]

theorem getPath_nil (root : JSVal) : getPath root [] = some root := by cases root <;> rfl

theorem getPath_obj_cons (m : List (String × JSVal)) (k : String) (ks : List String) :
    getPath (.obj m) (k :: ks) =
      match alookup m k with
      | some v => getPath v ks
      | none => none := rfl

theorem setPath_nil (v root : JSVal) : setPath v root [] = .ok v := by cases root <;> rfl

theorem setPath_obj_single (v : JSVal) (m : List (String × JSVal)) (k : String) :
    setPath v (.obj m) [k] = .ok (.obj (ainsert m k v)) := rfl

theorem setPath_obj_cons_cons (v : JSVal) (m : List (String × JSVal))
    (k k' : String) (ks' : List String) :
    setPath v (.obj m) (k :: k' :: ks') =
      match alookup m k with
      | none => (setPath v (.obj []) (k' :: ks')).map (fun sub => .obj (ainsert m k sub))
      | some (.obj m') => (setPath v (.obj m') (k' :: ks')).map (fun sub => .obj (ainsert m k sub))
      | some _ => .error errInvalidPath := rfl

theorem getPath_setPath_same :
    ∀ (segs : List String) (root root' v : JSVal),
      setPath v root segs = .ok root' → getPath root' segs = some v := by
  intro segs
  induction segs with
  | nil =>
      intro root root' v h
      simp [setPath_nil] at h
      subst h
      exact getPath_nil v
  | cons k ks ih =>
      intro root root' v h
      cases root with
      | obj m =>
          cases ks with
          | nil =>
              rw [setPath_obj_single] at h
              simp at h
              subst h
              rw [getPath_obj_cons, alookup_ainsert_self]
              exact getPath_nil v
          | cons k' ks' =>
              rw [setPath_obj_cons_cons] at h
              cases halk : alookup m k with
              | none =>
                  rw [halk] at h
                  simp only [] at h
                  cases hsp : setPath v (.obj []) (k' :: ks') with
                  | ok sub =>
                      rw [hsp] at h
                      simp [Except.map] at h
                      subst h
                      rw [getPath_obj_cons, alookup_ainsert_self]
                      exact ih _ _ _ hsp
                  | error e => rw [hsp] at h; simp [Except.map] at h
              | some child =>
                  rw [halk] at h
                  cases child with
                  | obj m' =>
                      simp only [] at h
                      cases hsp : setPath v (.obj m') (k' :: ks') with
                      | ok sub =>
                          rw [hsp] at h
                          simp [Except.map] at h
                          subst h
                          rw [getPath_obj_cons, alookup_ainsert_self]
                          exact ih _ _ _ hsp
                      | error e => rw [hsp] at h; simp [Except.map] at h
                  | num n => simp at h
                  | nan => simp at h
                  | str s => simp at h
                  | bool b => simp at h
                  | null => simp at h
                  | undefined => simp at h
                  | arr xs => simp at h
      | num n => simp [setPath] at h
      | nan => simp [setPath] at h
      | str s => simp [setPath] at h
      | bool b => simp [setPath] at h
      | null => simp [setPath] at h
      | undefined => simp [setPath] at h
      | arr xs => simp [setPath] at h

theorem setPath_ok_of_getPath_some :
    ∀ (segs : List String) (root w : JSVal), getPath root segs = some w →
      ∀ v, ∃ root', setPath v root segs = .ok root' := by
  intro segs
  induction segs with
  | nil =>
      intro root w _ v
      exact ⟨v, setPath_nil v root⟩
  | cons k ks ih =>
      intro root w h v
      cases root with
      | obj m =>
          rw [getPath_obj_cons] at h
          cases halk : alookup m k with
          | none => rw [halk] at h; simp at h
          | some child =>
              rw [halk] at h
              simp only [] at h
              cases ks with
              | nil => exact ⟨_, setPath_obj_single v m k⟩
              | cons k' ks' =>
                  have hchild : ∃ m', child = JSVal.obj m' := by
                    cases child with
                    | obj m' => exact ⟨m', rfl⟩
                    | num n => simp [getPath] at h
                    | nan => simp [getPath] at h
                    | str s => simp [getPath] at h
                    | bool b => simp [getPath] at h
                    | null => simp [getPath] at h
                    | undefined => simp [getPath] at h
                    | arr xs => simp [getPath] at h
                  obtain ⟨m', rfl⟩ := hchild
                  obtain ⟨sub, hsub⟩ := ih (.obj m') w h v
                  refine ⟨.obj (ainsert m k sub), ?_⟩
                  rw [setPath_obj_cons_cons, halk]
                  simp only []
                  rw [hsub]
                  rfl
      | num n => simp [getPath] at h
      | nan => simp [getPath] at h
      | str s => simp [getPath] at h
      | bool b => simp [getPath] at h
      | null => simp [getPath] at h
      | undefined => simp [getPath] at h
      | arr xs => simp [getPath] at h

theorem hitsMissing_getPath_none :
    ∀ (segs : List String) (root : JSVal), hitsMissing root segs = true →
      getPath root segs = none := by
  intro segs
  induction segs with
  | nil => intro root h; cases root <;> simp [hitsMissing] at h
  | cons k ks ih =>
      intro root h
      cases root with
      | obj m =>
          rw [getPath_obj_cons]
          cases halk : alookup m k with
          | none => simp
          | some child =>
              simp only []
              apply ih
              simp only [hitsMissing] at h
              rw [halk] at h
              exact h
      | num n => simp [hitsMissing] at h
      | nan => simp [hitsMissing] at h
      | str s => simp [hitsMissing] at h
      | bool b => simp [hitsMissing] at h
      | null => simp [hitsMissing] at h
      | undefined => simp [hitsMissing] at h
      | arr xs => simp [hitsMissing] at h

theorem setPath_ok_fresh :
    ∀ (ks : List String) (k : String) (v : JSVal),
      ∃ root', setPath v (.obj []) (k :: ks) = .ok root' := by
  intro ks
  induction ks with
  | nil => intro k v; exact ⟨_, setPath_obj_single v [] k⟩
  | cons k' ks' ih =>
      intro k v
      obtain ⟨sub, hsub⟩ := ih k' v
      refine ⟨.obj (ainsert [] k sub), ?_⟩
      rw [setPath_obj_cons_cons]
      have : alookup ([] : List (String × JSVal)) k = none := rfl
      rw [this]
      simp only []
      rw [hsub]
      rfl

theorem hitsMissing_setPath_ok :
    ∀ (segs : List String) (root : JSVal), hitsMissing root segs = true →
      ∀ v, ∃ root', setPath v root segs = .ok root' := by
  intro segs
  induction segs with
  | nil => intro root h; cases root <;> simp [hitsMissing] at h
  | cons k ks ih =>
      intro root h v
      cases root with
      | obj m =>
          simp only [hitsMissing] at h
          cases halk : alookup m k with
          | none =>
              cases ks with
              | nil => exact ⟨_, setPath_obj_single v m k⟩
              | cons k' ks' =>
                  obtain ⟨sub, hsub⟩ := setPath_ok_fresh ks' k' v
                  refine ⟨.obj (ainsert m k sub), ?_⟩
                  rw [setPath_obj_cons_cons, halk]
                  simp only []
                  rw [hsub]
                  rfl
          | some child =>
              rw [halk] at h
              simp only [] at h
              have hchild : ∃ m' k' ks', child = JSVal.obj m' ∧ ks = k' :: ks' := by
                cases child with
                | obj m' =>
                    cases ks with
                    | nil => simp [hitsMissing] at h
                    | cons k' ks' => exact ⟨m', k', ks', rfl, rfl⟩
                | num n => simp [hitsMissing] at h
                | nan => simp [hitsMissing] at h
                | str s => simp [hitsMissing] at h
                | bool b => simp [hitsMissing] at h
                | null => simp [hitsMissing] at h
                | undefined => simp [hitsMissing] at h
                | arr xs => simp [hitsMissing] at h
              obtain ⟨m', k', ks', rfl, rfl⟩ := hchild
              obtain ⟨sub, hsub⟩ := ih (.obj m') h v
              refine ⟨.obj (ainsert m k sub), ?_⟩
              rw [setPath_obj_cons_cons, halk]
              simp only []
              rw [hsub]
              rfl
      | num n => simp [hitsMissing] at h
      | nan => simp [hitsMissing] at h
      | str s => simp [hitsMissing] at h
      | bool b => simp [hitsMissing] at h
      | null => simp [hitsMissing] at h
      | undefined => simp [hitsMissing] at h
      | arr xs => simp [hitsMissing] at h

theorem getPath_append :
    ∀ (p q : List String) (root : JSVal),
      getPath root (p ++ q) = (getPath root p).bind (fun v => getPath v q) := by
  intro p
  induction p with
  | nil => intro q root; rw [getPath_nil]; rfl
  | cons k ks ih =>
      intro q root
      cases root with
      | obj m =>
          rw [List.cons_append, getPath_obj_cons, getPath_obj_cons]
          cases halk : alookup m k with
          | none => rfl
          | some child => simp only []; exact ih q child
      | num n => rfl
      | nan => rfl
      | str s => rfl
      | bool b => rfl
      | null => rfl
      | undefined => rfl
      | arr xs => rfl

theorem getPath_obj_empty_cons (k : String) (ks : List String) :
    getPath (.obj []) (k :: ks) = none := rfl

theorem getPath_setPath_diverged :
    ∀ (c : List String) (x y : String) (p' q' : List String)
      (root root' v : JSVal), x ≠ y →
      setPath v root (c ++ y :: q') = .ok root' →
      getPath root' (c ++ x :: p') = getPath root (c ++ x :: p') := by
  intro c
  induction c with
  | nil =>
      intro x y p' q' root root' v hxy h
      simp only [List.nil_append] at h ⊢
      cases root with
      | obj m =>
          cases q' with
          | nil =>
              rw [setPath_obj_single] at h
              simp at h
              subst h
              rw [getPath_obj_cons, getPath_obj_cons,
                alookup_ainsert_ne m y x v (Ne.symm hxy)]
          | cons y' q'' =>
              rw [setPath_obj_cons_cons] at h
              cases halk : alookup m y with
              | none =>
                  rw [halk] at h
                  simp only [] at h
                  cases hsp : setPath v (.obj []) (y' :: q'') with
                  | ok sub =>
                      rw [hsp] at h
                      simp [Except.map] at h
                      subst h
                      rw [getPath_obj_cons, getPath_obj_cons,
                        alookup_ainsert_ne m y x sub (Ne.symm hxy)]
                  | error e => rw [hsp] at h; simp [Except.map] at h
              | some child =>
                  rw [halk] at h
                  cases child with
                  | obj m' =>
                      simp only [] at h
                      cases hsp : setPath v (.obj m') (y' :: q'') with
                      | ok sub =>
                          rw [hsp] at h
                          simp [Except.map] at h
                          subst h
                          rw [getPath_obj_cons, getPath_obj_cons,
                            alookup_ainsert_ne m y x sub (Ne.symm hxy)]
                      | error e => rw [hsp] at h; simp [Except.map] at h
                  | num n => simp at h
                  | nan => simp at h
                  | str s => simp at h
                  | bool b => simp at h
                  | null => simp at h
                  | undefined => simp at h
                  | arr xs => simp at h
      | num n => simp [setPath] at h
      | nan => simp [setPath] at h
      | str s => simp [setPath] at h
      | bool b => simp [setPath] at h
      | null => simp [setPath] at h
      | undefined => simp [setPath] at h
      | arr xs => simp [setPath] at h
  | cons k c' ih =>
      intro x y p' q' root root' v hxy h
      simp only [List.cons_append] at h ⊢
      cases root with
      | obj m =>
          have hne : c' ++ y :: q' ≠ [] := by
            cases c' <;> simp
          obtain ⟨k1, krest, hk1⟩ : ∃ k1 krest, c' ++ y :: q' = k1 :: krest := by
            cases hcc : c' ++ y :: q' with
            | nil => exact absurd hcc hne
            | cons k1 krest => exact ⟨k1, krest, rfl⟩
          rw [hk1, setPath_obj_cons_cons] at h
          cases halk : alookup m k with
          | none =>
              rw [halk] at h
              simp only [] at h
              cases hsp : setPath v (.obj []) (k1 :: krest) with
              | ok sub =>
                  rw [hsp] at h
                  simp [Except.map] at h
                  subst h
                  rw [getPath_obj_cons, getPath_obj_cons, halk,
                    alookup_ainsert_self]
                  simp only []
                  rw [← hk1] at hsp
                  have hdiv := ih x y p' q' (.obj []) sub v hxy hsp
                  rw [hdiv]
                  cases c' with
                  | nil => rw [List.nil_append, getPath_obj_empty_cons]
                  | cons c1 cs => rw [List.cons_append, getPath_obj_empty_cons]
              | error e => rw [hsp] at h; simp [Except.map] at h
          | some child =>
              rw [halk] at h
              cases child with
              | obj m' =>
                  simp only [] at h
                  cases hsp : setPath v (.obj m') (k1 :: krest) with
                  | ok sub =>
                      rw [hsp] at h
                      simp [Except.map] at h
                      subst h
                      rw [getPath_obj_cons, getPath_obj_cons, halk,
                        alookup_ainsert_self]
                      simp only []
                      rw [← hk1] at hsp
                      exact ih x y p' q' (.obj m') sub v hxy hsp
                  | error e => rw [hsp] at h; simp [Except.map] at h
              | num n => simp at h
              | nan => simp at h
              | str s => simp at h
              | bool b => simp at h
              | null => simp at h
              | undefined => simp at h
              | arr xs => simp at h
      | num n => simp [setPath] at h
      | nan => simp [setPath] at h
      | str s => simp [setPath] at h
      | bool b => simp [setPath] at h
      | null => simp [setPath] at h
      | undefined => simp [setPath] at h
      | arr xs => simp [setPath] at h

theorem splitSegs_ne_nil : ∀ cs : List Char, splitSegs cs ≠ [] := by
  intro cs
  induction cs with
  | nil => simp [splitSegs]
  | cons c cs' ih =>
      simp only [splitSegs]
      by_cases hc : c = '.'
      · simp [hc]
      · simp only [hc, if_false]
        cases hs : splitSegs cs' with
        | nil => exact absurd hs ih
        | cons h t => simp [consHead]

theorem consHead_append (c : Char) :
    ∀ (xs ys : List String), xs ≠ [] →
      consHead c (xs ++ ys) = consHead c xs ++ ys := by
  intro xs ys h
  cases xs with
  | nil => exact absurd rfl h
  | cons x xt => simp [consHead]

theorem splitSegs_append :
    ∀ (a b : List Char), splitSegs (a ++ '.' :: b) = splitSegs a ++ splitSegs b := by
  intro a b
  induction a with
  | nil => simp [splitSegs]
  | cons c a' ih =>
      simp only [List.cons_append, splitSegs, List.append_eq]
      by_cases hc : c = '.'
      · simp [hc, ih]
      · simp only [hc, if_false]
        rw [ih, consHead_append c (splitSegs a') (splitSegs b) (splitSegs_ne_nil a')]

theorem joinSegs_splitSegs : ∀ cs : List Char, joinSegs (splitSegs cs) = cs := by
  intro cs
  induction cs with
  | nil => rfl
  | cons c cs' ih =>
      simp only [splitSegs]
      by_cases hc : c = '.'
      · simp only [hc, if_true]
        cases hs : splitSegs cs' with
        | nil => exact absurd hs (splitSegs_ne_nil cs')
        | cons h t =>
            rw [hs] at ih
            show joinSegs ("" :: h :: t) = '.' :: cs'
            simp only [joinSegs]
            rw [ih]
            rfl
      · simp only [hc, if_false]
        cases hs : splitSegs cs' with
        | nil => exact absurd hs (splitSegs_ne_nil cs')
        | cons h t =>
            rw [hs] at ih
            cases t with
            | nil =>
                show joinSegs [String.mk (c :: h.data)] = c :: cs'
                simp only [joinSegs] at ih ⊢
                simp only [← ih]
            | cons h2 t2 =>
                show joinSegs (String.mk (c :: h.data) :: h2 :: t2) = c :: cs'
                simp only [joinSegs] at ih ⊢
                rw [← ih]
                rfl

theorem splitSegs_injective :
    ∀ (a b : List Char), splitSegs a = splitSegs b → a = b := by
  intro a b h
  have ha := joinSegs_splitSegs a
  rw [h, joinSegs_splitSegs b] at ha
  exact ha.symm

theorem string_data_injective : ∀ (a b : String), a.data = b.data → a = b := by
  intro a b h
  cases a
  cases b
  exact congrArg String.mk h

theorem splitDots_injective :
    ∀ (a b : String), splitDots a = splitDots b → a = b := by
  intro a b h
  exact string_data_injective a b (splitSegs_injective a.data b.data h)

theorem string_data_append : ∀ (a b : String), (a ++ b).data = a.data ++ b.data := by
  intro a b
  cases a
  cases b
  rfl

theorem list_trichotomy {α : Type} :
    ∀ (p q : List α), p ≠ q →
      (∃ t, p ++ t = q) ∨ (∃ t, q ++ t = p) ∨
      (∃ c x y p' q', x ≠ y ∧ p = c ++ x :: p' ∧ q = c ++ y :: q') := by
  intro p
  induction p with
  | nil => intro q _; exact Or.inl ⟨q, rfl⟩
  | cons a p' ih =>
      intro q hne
      cases q with
      | nil => exact Or.inr (Or.inl ⟨a :: p', rfl⟩)
      | cons b q' =>
          by_cases hab : a = b
          · subst hab
            have hne' : p' ≠ q' := by
              intro h
              exact hne (by rw [h])
            rcases ih q' hne' with ⟨t, ht⟩ | ⟨t, ht⟩ | ⟨c, x, y, pp, qq, hxy, hp, hq⟩
            · exact Or.inl ⟨t, by rw [List.cons_append, ht]⟩
            · exact Or.inr (Or.inl ⟨t, by rw [List.cons_append, ht]⟩)
            · exact Or.inr (Or.inr ⟨a :: c, x, y, pp, qq, hxy,
                by rw [hp, List.cons_append], by rw [hq, List.cons_append]⟩)
          · exact Or.inr (Or.inr ⟨[], a, b, p', q', hab, rfl, rfl⟩)

theorem splitDots_moneyPath (g m : String) :
    splitDots (moneyPath (.str g) (.str m)) =
      splitSegs g.data ++ (splitSegs m.data ++ ["money"]) := by
  show splitSegs (g ++ "." ++ m ++ ".money").data =
    splitSegs g.data ++ (splitSegs m.data ++ ["money"])
  rw [string_data_append, string_data_append, string_data_append]
  have h1 : (("." : String)).data = ['.'] := rfl
  have h2 : ((".money" : String)).data = '.' :: ("money" : String).data := rfl
  rw [h1, h2]
  have h3 : g.data ++ ['.'] ++ m.data ++ '.' :: ("money" : String).data =
      g.data ++ '.' :: (m.data ++ '.' :: ("money" : String).data) := by
    simp
  rw [h3, splitSegs_append, splitSegs_append]
  rfl

theorem moneyPath_segs_ne (g s r : String) (h : s ≠ r) :
    splitDots (moneyPath (.str g) (.str s)) ≠ splitDots (moneyPath (.str g) (.str r)) := by
  rw [splitDots_moneyPath, splitDots_moneyPath]
  intro heq
  have h1 := List.append_cancel_left heq
  have h2 := List.append_cancel_right h1
  exact h (string_data_injective s r (splitSegs_injective s.data r.data h2))

mutual

theorem jsBeq_refl : ∀ v, jsBeq v v = true
  | .num n => by simp [jsBeq]
  | .nan => rfl
  | .str s => by simp [jsBeq]
  | .bool b => by simp [jsBeq]
  | .null => rfl
  | .undefined => rfl
  | .arr xs => by simp [jsBeq, jsBeqList_refl xs]
  | .obj fs => by simp [jsBeq, jsBeqFields_refl fs]

theorem jsBeqList_refl : ∀ xs, jsBeqList xs xs = true
  | [] => rfl
  | x :: xs => by simp [jsBeqList, jsBeq_refl x, jsBeqList_refl xs]

theorem jsBeqFields_refl : ∀ fs, jsBeqFields fs fs = true
  | [] => rfl
  | (k, v) :: fs => by simp [jsBeqFields, jsBeq_refl v, jsBeqFields_refl fs]

end

theorem jsOr_num_zero (k : Int) : jsOr (.num k) (.num 0) = .num k := by
  by_cases hk : k = 0
  · simp [jsOr, truthy, hk]
  · simp [jsOr, truthy, hk]

/-- C1: starting from an absent path, `set("g1.u1.money", 100)`, then
`add(..., 50)`, then `fetch` returns `150`; a further `subtract(..., 200)`
followed by `fetch` returns `-50`: the numeric operators use exact integer
arithmetic with no floor at zero, so negative balances are stored both by the
store itself and through `BalanceManager.subtract`. -/
theorem claim_C1 :
    (dbSetRun emptyStore "g1.u1.money" (.num 100)).1 = .ok (.num 100) ∧
    (dbAddRun c1s1 "g1.u1.money" (.num 50)).1 = .ok (.num 150) ∧
    dbFetchVal c1s2 "g1.u1.money" = .num 150 ∧
    (dbSubtractRun c1s2 "g1.u1.money" (.num 200)).1 = .ok (.num (-50)) ∧
    dbFetchVal c1s3 "g1.u1.money" = .num (-50) ∧
    (bmSubtract (.num 200) (.str "u1") (.str "g1") none c1s2).ret = .ok (.num 200) ∧
    dbFetchVal (bmSubtract (.num 200) (.str "u1") (.str "g1") none c1s2).st
      "g1.u1.money" = .num (-50) :=
  ⟨rfl, rfl, rfl, rfl, rfl, rfl, rfl⟩

/-- C4: the claim that every mutation event's `balance` field equals the
resulting balance fails in the code: `Currency.addBalance` on old balance
`100` with amount `50` stores and returns the new balance `150`, but its
`customCurrencyAdd` payload carries `balance = 250`
(`currencyBalance + result`, double-counting the old balance); symmetrically
`subtractBalance(30)` stores `70` but emits `balance = 30`. -/
theorem claim_C4 :
    c4out.ret = .ok (.num 150) ∧
    c4out.events.map (fun e => (e.name, e.balance)) =
      [("customCurrencyAdd", .num 250)] ∧
    dbFetchVal c4out.st "g.currencies" =
      .arr [.obj [("id", .num 1), ("name", .str "coin"),
                  ("balances", .obj [("u1", .num 150)])]] ∧
    (JSVal.num 250 ≠ JSVal.num 150) ∧
    c4out2.ret = .ok (.num 70) ∧
    c4out2.events.map (fun e => (e.name, e.balance)) =
      [("customCurrencySubtract", .num 30)] ∧
    (JSVal.num 30 ≠ JSVal.num 70) :=
  ⟨rfl, rfl, rfl, by intro h; injection h with h'; omega,
   rfl, rfl, by intro h; injection h with h'; omega⟩

/-- C10: the leaderboard pairs the unfiltered member-key list with the
filtered money list index-by-index, so when any member's money is
non-numeric the attribution misaligns: with `u1.money = "abc"` and
`u2.money = 50`, the only returned entry names `u1` with `u2`'s money; with a
moneyless `shop` key between `u1` (100) and `u2` (50), `u2`'s money is
attributed to `shop` and then dropped by the `'shop'` filter, so `u2`
vanishes. -/
theorem claim_C10 :
    bmLeaderboard (.str "g") c10st = .ok [⟨.str "u1", .num 50⟩] ∧
    getPath c10st.root (splitDots "g.u1.money") = some (.str "abc") ∧
    getPath c10st.root (splitDots "g.u2.money") = some (.num 50) ∧
    bmLeaderboard (.str "g") c10st2 = .ok [⟨.str "u1", .num 100⟩] ∧
    getPath c10st2.root (splitDots "g.u2.money") = some (.num 50) :=
  ⟨rfl, rfl, rfl, rfl, rfl⟩

/-- C3, counterexample: `null` is a non-numeric amount, yet
`BalanceManager.set(null, 'u1', 'g1')` raises no error (JS `isNaN(null)` is
`false` since `Number(null) = 0`) and overwrites the persisted
`g1.u1.money = 100` with `null` — so the claim that every non-numeric amount
is rejected with `INVALID_TYPE` before any write is false. -/
theorem claim_C3_counterexample :
    (bmSet .null (.str "u1") (.str "g1") none stC3).ret = .ok .null ∧
    getPath (bmSet .null (.str "u1") (.str "g1") none stC3).st.file
      (splitDots "g1.u1.money") = some .null ∧
    getPath stC3.file (splitDots "g1.u1.money") = some (.num 100) ∧
    (JSVal.null ≠ JSVal.num 100) :=
  ⟨rfl, rfl, rfl, fun h => JSVal.noConfusion h⟩

/-- C2: `add`/`subtract` on a path whose current stored value is present and
non-numeric — a string, boolean, `null`, `undefined`, array, object, or the
`NaN` of the integer model — fail with `INVALID_TYPE` and leave the store —
in particular the stored value at that path — unchanged. -/
theorem claim_C2 :
    ∀ (st : FileStore) (p : String) (w amt : JSVal),
      getPath st.root (splitDots p) = some w →
      (∀ n : Int, w ≠ .num n) →
      dbAddRun st p amt = (.error errInvalidType, st) ∧
      dbSubtractRun st p amt = (.error errInvalidType, st) ∧
      getPath (dbAddRun st p amt).2.root (splitDots p) = some w ∧
      getPath (dbSubtractRun st p amt).2.root (splitDots p) = some w := by
  intro st p w amt h hw
  have hadd : dbAddRun st p amt = (.error errInvalidType, st) := by
    unfold dbAddRun dbFetchOpt
    rw [h]
    cases w with
    | num n => exact absurd rfl (hw n)
    | nan => rfl
    | str s => rfl
    | bool b => rfl
    | null => rfl
    | undefined => rfl
    | arr xs => rfl
    | obj fs => rfl
  have hsub : dbSubtractRun st p amt = (.error errInvalidType, st) := by
    unfold dbSubtractRun dbFetchOpt
    rw [h]
    cases w with
    | num n => exact absurd rfl (hw n)
    | nan => rfl
    | str s => rfl
    | bool b => rfl
    | null => rfl
    | undefined => rfl
    | arr xs => rfl
    | obj fs => rfl
  refine ⟨hadd, hsub, ?_, ?_⟩
  · rw [hadd]
    exact h
  · rw [hsub]
    exact h

/-- C2 witness: a store holding the string `"hello"` at `g1.u1.money`, and
one holding the boolean `true` there, both reject `add` with `INVALID_TYPE`,
unchanged. -/
theorem claim_C2_witness :
    getPath stC2w.root (splitDots "g1.u1.money") = some (.str "hello") ∧
    dbAddRun stC2w "g1.u1.money" (.num 5) = (.error errInvalidType, stC2w) ∧
    getPath stC2b.root (splitDots "g1.u1.money") = some (.bool true) ∧
    dbAddRun stC2b "g1.u1.money" (.num 5) = (.error errInvalidType, stC2b) :=
  ⟨rfl,
   (claim_C2 stC2w "g1.u1.money" (.str "hello") (.num 5) rfl
     (fun n hn => JSVal.noConfusion hn)).1,
   rfl,
   (claim_C2 stC2b "g1.u1.money" (.bool true) (.num 5) rfl
     (fun n hn => JSVal.noConfusion hn)).1⟩

/-- C5: when the read descent of a path meets a missing segment, the read
resolves to `NOT_FOUND` (and, being a pure function, never mutates the
root), while a write resolution of the same path creates the missing
intermediate mappings so that the final segment becomes an assignable slot:
the write succeeds and a subsequent read finds the assigned value. -/
theorem claim_C5 :
    ∀ (root : JSVal) (segs : List String), hitsMissing root segs = true →
      getPath root segs = none ∧
      ∀ v, ∃ root', setPath v root segs = .ok root' ∧
        getPath root' segs = some v := by
  intro root segs h
  refine ⟨hitsMissing_getPath_none segs root h, fun v => ?_⟩
  obtain ⟨root', hsp⟩ := hitsMissing_setPath_ok segs root h v
  exact ⟨root', hsp, getPath_setPath_same segs root root' v hsp⟩

/-- C5 witness: `a.b.c` under a root where `a` is an empty mapping. -/
theorem claim_C5_witness :
    hitsMissing (.obj [("a", .obj [])]) ["a", "b", "c"] = true ∧
    getPath (.obj [("a", .obj [])]) ["a", "b", "c"] = none :=
  ⟨rfl, (claim_C5 (.obj [("a", .obj [])]) ["a", "b", "c"] rfl).1⟩

/-- C6: for every path on which `set` succeeds, a `fetch` with no
intervening mutation returns exactly the value that was set (the store
round-trip; values are compared structurally, i.e. deep equality). -/
theorem claim_C6 :
    ∀ (st : FileStore) (p : String) (v : JSVal) (st' : FileStore),
      dbSetRun st p v = (.ok v, st') →
      dbFetchOpt st' p = some v ∧ dbFetchVal st' p = v := by
  intro st p v st' h
  unfold dbSetRun at h
  cases hsp : setPath v st.root (splitDots p) with
  | ok r' =>
      rw [hsp] at h
      have hst : (⟨r', r'⟩ : FileStore) = st' := congrArg Prod.snd h
      subst hst
      have hget : getPath r' (splitDots p) = some v :=
        getPath_setPath_same _ _ _ _ hsp
      constructor
      · exact hget
      · unfold dbFetchVal dbFetchOpt
        rw [hget]
        rfl
  | error e =>
      rw [hsp] at h
      exact absurd (congrArg Prod.fst h) (by simp)

/-- C6 witness: `set("a.b", 7)` then `fetch("a.b")` on an empty store. -/
theorem claim_C6_witness :
    dbSetRun emptyStore "a.b" (.num 7) =
      (.ok (.num 7), (dbSetRun emptyStore "a.b" (.num 7)).2) ∧
    dbFetchVal (dbSetRun emptyStore "a.b" (.num 7)).2 "a.b" = .num 7 :=
  ⟨rfl, (claim_C6 emptyStore "a.b" (.num 7) _ rfl).2⟩

/-- C7: on an absent path (a read descent meeting a missing segment),
`push(p, x)` produces the one-element array `[x]`, and a following
`pull(p, x)` produces `[]`: the array operators treat absence as the empty
array. -/
theorem claim_C7 :
    ∀ (st : FileStore) (p : String) (x : JSVal),
      hitsMissing st.root (splitDots p) = true →
      ∃ st' st'', dbPushRun st p x = (.ok (.arr [x]), st') ∧
        dbPullRun st' p x = (.ok (.arr []), st'') := by
  intro st p x h
  have hget : getPath st.root (splitDots p) = none :=
    hitsMissing_getPath_none _ _ h
  obtain ⟨r', hsp⟩ := hitsMissing_setPath_ok _ _ h (.arr [x])
  have hget1 : getPath r' (splitDots p) = some (.arr [x]) :=
    getPath_setPath_same _ _ _ _ hsp
  obtain ⟨r'', hsp2⟩ := setPath_ok_of_getPath_some _ _ _ hget1 (.arr [])
  have hrf : removeFirst [x] x = [] := by simp [removeFirst, jsBeq_refl x]
  refine ⟨⟨r', r'⟩, ⟨r'', r''⟩, ?_, ?_⟩
  · unfold dbPushRun dbFetchOpt
    rw [hget]
    unfold dbArrWrite
    rw [hsp]
  · unfold dbPullRun dbFetchOpt
    show (match getPath r' (splitDots p) with
      | some (.arr xs) => dbArrWrite ⟨r', r'⟩ p (removeFirst xs x)
      | none => dbArrWrite ⟨r', r'⟩ p []
      | some _ => (.error errInvalidType, ⟨r', r'⟩)) = (.ok (.arr []), ⟨r'', r''⟩)
    rw [hget1]
    simp only [hrf]
    unfold dbArrWrite
    rw [hsp2]

/-- C7 witness: push then pull of `{id: 1}` on the absent `g1.u1.inventory`
of an empty store. -/
theorem claim_C7_witness :
    hitsMissing emptyStore.root (splitDots "g1.u1.inventory") = true ∧
    ∃ st' st'',
      dbPushRun emptyStore "g1.u1.inventory" (.obj [("id", .num 1)]) =
        (.ok (.arr [.obj [("id", .num 1)]]), st') ∧
      dbPullRun st' "g1.u1.inventory" (.obj [("id", .num 1)]) =
        (.ok (.arr []), st'') :=
  ⟨rfl, claim_C7 emptyStore "g1.u1.inventory" (.obj [("id", .num 1)]) rfl⟩

/-- C8: in the cache-over-remote store, once a write has completed (the
remote store acknowledged the new value and the cache was synchronously
updated with it), an immediately following read of the same kind/key returns
that acknowledged value — whether or not the cache entry's staleness window
has elapsed at read time (a stale entry re-fetches the same value from the
remote store). -/
theorem claim_C8 :
    ∀ (st : CacheStore) (k : CacheKey) (f : Option JSVal → JSVal)
      (t t' maxAge : Nat),
      (cmRead (cmWrite st k f t).2 k t' maxAge).1 =
        some (cmWrite st k f t).1 := by
  intro st k f t t' maxAge
  unfold cmWrite cmRead
  simp only []
  rw [alookup_ainsert_self]
  by_cases hstale : CacheEntry.isStale ⟨f (alookup st.remote k), t⟩ t' maxAge
  · simp only [hstale, if_true]
    rw [alookup_ainsert_self]
  · simp [hstale]

/-- C3 (amended): for `BalanceManager.set`/`add`/`subtract`/`deposit`, an
amount failing JS's `isNaN` test, or a non-string member or guild ID, is
rejected with `INVALID_TYPE` (and a negative numeric `deposit` amount with
`INVALID_INPUT`, which takes precedence over the ID checks) before any write:
the store — including the persisted document — is returned exactly as it
was and no event is emitted.  (The read of the prior balance that precedes
validation is an in-memory read; the amendment replaces the original
"non-numeric amount" with "amount failing `isNaN`", because values such as
`null` pass `isNaN` and are written — see the counterexample.) -/
theorem claim_C3 :
    ∀ (st : FileStore) (a m g : JSVal) (re : Option String),
      ((jsIsNaN a = true ∨ isStr m = false ∨ isStr g = false) →
        bmSet a m g re st = ⟨.error errInvalidType, st, []⟩) ∧
      ((jsIsNaN a = true ∨ isStr m = false ∨ isStr g = false) →
        bmAdd a m g re st = ⟨.error errInvalidType, st, []⟩) ∧
      ((jsIsNaN a = true ∨ isStr m = false ∨ isStr g = false) →
        bmSubtract a m g re st = ⟨.error errInvalidType, st, []⟩) ∧
      (jsIsNaN a = true →
        bmDeposit a m g re st = ⟨.error errInvalidType, st, []⟩) ∧
      (jsIsNaN a = false → jsLtZero a = true →
        bmDeposit a m g re st = ⟨.error errInvalidInput, st, []⟩) ∧
      (jsIsNaN a = false → jsLtZero a = false →
        (isStr m = false ∨ isStr g = false) →
        bmDeposit a m g re st = ⟨.error errInvalidType, st, []⟩) := by
  intro st a m g re
  refine ⟨?_, ?_, ?_, ?_, ?_, ?_⟩
  · intro h
    unfold bmSet
    rcases h with hnan | hm | hg
    · simp [hnan]
    · by_cases hnan : jsIsNaN a
      · simp [hnan]
      · simp [hnan, hm]
    · by_cases hnan : jsIsNaN a
      · simp [hnan]
      · by_cases hm : isStr m
        · simp [hnan, hm, hg]
        · simp [hnan, hm]
  · intro h
    unfold bmAdd
    rcases h with hnan | hm | hg
    · simp [hnan]
    · by_cases hnan : jsIsNaN a
      · simp [hnan]
      · simp [hnan, hm]
    · by_cases hnan : jsIsNaN a
      · simp [hnan]
      · by_cases hm : isStr m
        · simp [hnan, hm, hg]
        · simp [hnan, hm]
  · intro h
    unfold bmSubtract
    rcases h with hnan | hm | hg
    · simp [hnan]
    · by_cases hnan : jsIsNaN a
      · simp [hnan]
      · simp [hnan, hm]
    · by_cases hnan : jsIsNaN a
      · simp [hnan]
      · by_cases hm : isStr m
        · simp [hnan, hm, hg]
        · simp [hnan, hm]
  · intro hnan
    unfold bmDeposit
    simp [hnan]
  · intro hnan hneg
    unfold bmDeposit
    simp [hnan, hneg]
  · intro hnan hneg h
    unfold bmDeposit
    rcases h with hm | hg
    · simp [hnan, hneg, hm]
    · by_cases hm : isStr m
      · simp [hnan, hneg, hm, hg]
      · simp [hnan, hneg, hm]

/-- C3 witness: an `undefined` amount is rejected by `set` with
`INVALID_TYPE` and a negative numeric `deposit` amount with `INVALID_INPUT`,
both leaving the store untouched. -/
theorem claim_C3_witness :
    jsIsNaN .undefined = true ∧
    bmSet .undefined (.str "u") (.str "g") none stC3 =
      ⟨.error errInvalidType, stC3, []⟩ ∧
    bmDeposit (.num (-5)) (.str "u") (.str "g") none stC3 =
      ⟨.error errInvalidInput, stC3, []⟩ :=
  ⟨rfl, (claim_C3 stC3 .undefined (.str "u") (.str "g") none).1 (Or.inl rfl),
   (claim_C3 stC3 (.num (-5)) (.str "u") (.str "g") none).2.2.2.2.1 rfl rfl⟩

theorem fetchBalance_num (st : FileStore) (mS gS : String) (b : Int)
    (hget : getPath st.root (splitDots (moneyPath (.str gS) (.str mS))) =
      some (.num b)) :
    fetchBalance st (.str mS) (.str gS) = .num b := by
  unfold fetchBalance dbFetchVal dbFetchOpt
  rw [hget]
  exact jsOr_num_zero b

theorem bmAdd_ok (st : FileStore) (a b : Int) (mS gS : String)
    (re : Option String) (r' : JSVal)
    (hget : getPath st.root (splitDots (moneyPath (.str gS) (.str mS))) =
      some (.num b))
    (hsp : setPath (.num (b + a)) st.root
      (splitDots (moneyPath (.str gS) (.str mS))) = .ok r') :
    bmAdd (.num a) (.str mS) (.str gS) re st =
      ⟨.ok (.num a), ⟨r', r'⟩,
        [⟨"balanceAdd", "add", .str gS, .str mS, .num a, .num (b + a), re,
          none⟩]⟩ := by
  have hdb : dbAddRun st (moneyPath (.str gS) (.str mS)) (.num a) =
      (.ok (.num (b + a)), ⟨r', r'⟩) := by
    unfold dbAddRun dbFetchOpt dbNumWrite
    rw [hget]
    simp only []
    rw [hsp]
  unfold bmAdd
  rw [fetchBalance_num st mS gS b hget, hdb]
  simp [jsAdd, stringyOperand, jsToNum, jsNumber, jsIsNaN, isStr]

theorem bmSubtract_ok (st : FileStore) (a b : Int) (mS gS : String)
    (re : Option String) (r' : JSVal)
    (hget : getPath st.root (splitDots (moneyPath (.str gS) (.str mS))) =
      some (.num b))
    (hsp : setPath (.num (b - a)) st.root
      (splitDots (moneyPath (.str gS) (.str mS))) = .ok r') :
    bmSubtract (.num a) (.str mS) (.str gS) re st =
      ⟨.ok (.num a), ⟨r', r'⟩,
        [⟨"balanceSubtract", "subtract", .str gS, .str mS, .num a,
          .num (b - a), re, none⟩]⟩ := by
  have hdb : dbSubtractRun st (moneyPath (.str gS) (.str mS)) (.num a) =
      (.ok (.num (b - a)), ⟨r', r'⟩) := by
    unfold dbSubtractRun dbFetchOpt dbNumWrite
    rw [hget]
    simp only []
    rw [hsp]
  unfold bmSubtract
  rw [fetchBalance_num st mS gS b hget, hdb]
  simp [jsSub, jsToNum, jsNumber, jsIsNaN, isStr]

/-- C9: for distinct sender and receiver members of a guild whose stored
balances are numeric, `BalanceManager.transfer` adds the amount to the
receiver's balance and subtracts it from the sender's, preserving the sum of
the two balances, and returns `success: true` together with the
post-transfer sender and receiver balances. -/
theorem claim_C9 :
    ∀ (st : FileStore) (g s r : String) (a bs br : Int)
      (sr rr : Option String),
      s ≠ r →
      getPath st.root (splitDots (moneyPath (.str g) (.str s))) =
        some (.num bs) →
      getPath st.root (splitDots (moneyPath (.str g) (.str r))) =
        some (.num br) →
      ∃ res : TransferResult,
        (bmTransfer (.str g) ⟨.num a, .str s, .str r, sr, rr⟩ st).ret =
          .ok res ∧
        res.success = true ∧
        res.senderBalance = .num (bs - a) ∧
        res.receiverBalance = .num (br + a) ∧
        getPath (bmTransfer (.str g) ⟨.num a, .str s, .str r, sr, rr⟩ st).st.root
          (splitDots (moneyPath (.str g) (.str s))) = some (.num (bs - a)) ∧
        getPath (bmTransfer (.str g) ⟨.num a, .str s, .str r, sr, rr⟩ st).st.root
          (splitDots (moneyPath (.str g) (.str r))) = some (.num (br + a)) ∧
        (bs - a) + (br + a) = bs + br := by
  intro st g s r a bs br sr rr hsr hs hr
  have hne : splitDots (moneyPath (.str g) (.str s)) ≠
      splitDots (moneyPath (.str g) (.str r)) := moneyPath_segs_ne g s r hsr
  rcases list_trichotomy _ _ hne with ⟨t, ht⟩ | ⟨t, ht⟩ |
    ⟨c, x, y, p', q', hxy, hLs, hLr⟩
  · exfalso
    cases t with
    | nil => rw [List.append_nil] at ht; exact hne ht
    | cons d ds =>
        have hap := getPath_append
          (splitDots (moneyPath (.str g) (.str s))) (d :: ds) st.root
        rw [ht, hs, hr] at hap
        simp [getPath] at hap
  · exfalso
    cases t with
    | nil => rw [List.append_nil] at ht; exact hne ht.symm
    | cons d ds =>
        have hap := getPath_append
          (splitDots (moneyPath (.str g) (.str r))) (d :: ds) st.root
        rw [ht, hr, hs] at hap
        simp [getPath] at hap
  · obtain ⟨r1, hsp1⟩ := setPath_ok_of_getPath_some _ _ _ hr (.num (br + a))
    have hget1r : getPath r1 (splitDots (moneyPath (.str g) (.str r))) =
        some (.num (br + a)) := getPath_setPath_same _ _ _ _ hsp1
    have hget1s : getPath r1 (splitDots (moneyPath (.str g) (.str s))) =
        some (.num bs) := by
      have hsp1' := hsp1
      rw [hLr] at hsp1'
      rw [hLs, getPath_setPath_diverged c x y p' q' st.root r1 _ hxy hsp1',
        ← hLs]
      exact hs
    obtain ⟨r2, hsp2⟩ := setPath_ok_of_getPath_some _ _ _ hget1s (.num (bs - a))
    have hget2s : getPath r2 (splitDots (moneyPath (.str g) (.str s))) =
        some (.num (bs - a)) := getPath_setPath_same _ _ _ _ hsp2
    have hget2r : getPath r2 (splitDots (moneyPath (.str g) (.str r))) =
        some (.num (br + a)) := by
      have hsp2' := hsp2
      rw [hLs] at hsp2'
      rw [hLr, getPath_setPath_diverged c y x q' p' r1 r2 _ (Ne.symm hxy) hsp2',
        ← hLr]
      exact hget1r
    have hout1 := bmAdd_ok st a br r g
      (some (rr.getD "receiving money from user")) r1 hr hsp1
    have hout2 := bmSubtract_ok ⟨r1, r1⟩ a bs s g
      (some (sr.getD "sending money to user")) r2 hget1s hsp2
    have hfs : fetchBalance ⟨r2, r2⟩ (.str s) (.str g) = .num (bs - a) :=
      fetchBalance_num ⟨r2, r2⟩ s g _ hget2s
    have hfr : fetchBalance ⟨r2, r2⟩ (.str r) (.str g) = .num (br + a) :=
      fetchBalance_num ⟨r2, r2⟩ r g _ hget2r
    refine ⟨⟨true, .str g, .num (bs - a), .num (br + a), .num a, .str s,
      .str r, sr, rr⟩, ?_, rfl, rfl, rfl, ?_, ?_, by ring⟩
    · simp [bmTransfer, hout1, hout2, bmFetch, hfs, hfr, jsIsNaN, jsToNum,
        isStr]
    · simp [bmTransfer, hout1, hout2, bmFetch, hfs, hfr, jsIsNaN, jsToNum,
        isStr, hget2s]
    · simp [bmTransfer, hout1, hout2, bmFetch, hfs, hfr, jsIsNaN, jsToNum,
        isStr, hget2r]

/-- C9 witness: transferring 20 from `u1` (100) to `u2` (30) in guild `g1`
leaves 80 and 50. -/
theorem claim_C9_witness :
    ("u1" : String) ≠ "u2" ∧
    getPath stC9w.root (splitDots (moneyPath (.str "g1") (.str "u1"))) =
      some (.num 100) ∧
    getPath stC9w.root (splitDots (moneyPath (.str "g1") (.str "u2"))) =
      some (.num 30) ∧
    ∃ res : TransferResult,
      (bmTransfer (.str "g1") ⟨.num 20, .str "u1", .str "u2", none, none⟩
        stC9w).ret = .ok res ∧
      res.success = true ∧
      res.senderBalance = .num (100 - 20) ∧
      res.receiverBalance = .num (30 + 20) ∧
      getPath (bmTransfer (.str "g1")
          ⟨.num 20, .str "u1", .str "u2", none, none⟩ stC9w).st.root
        (splitDots (moneyPath (.str "g1") (.str "u1"))) =
          some (.num (100 - 20)) ∧
      getPath (bmTransfer (.str "g1")
          ⟨.num 20, .str "u1", .str "u2", none, none⟩ stC9w).st.root
        (splitDots (moneyPath (.str "g1") (.str "u2"))) =
          some (.num (30 + 20)) ∧
      (100 - 20 : Int) + (30 + 20) = 100 + 30 :=
  ⟨by decide, rfl, rfl,
   claim_C9 stC9w "g1" "u1" "u2" 20 100 30 none none (by decide) rfl rfl⟩
